import Mathlib

/-!
Shallow embedding of `kvdb/dbserver.py`: an in-memory key-value store with
per-key TTL expiration, an expiry index (`ExpiryService.keys`, a defaultdict
from expiration instant to a list of keys), and a command dispatcher
(`Server.handle_message` / `Server.process_input`).

Python values that flow through the store are modelled by `Value`
(JSON-style scalars: null, integers, strings). Timestamps (`int(time.time())`)
are modelled as `Int`. Exceptions are modelled with `Except Err`; `Err`
distinguishes the `ServerError` subclasses defined in the source
(`CommandNotFoundError`, `NotIncrementableError`) from the builtin Python
exceptions that the source can also raise (`ValueError` from `list.remove`
in `ExpiryService.unsubscribe`, `TypeError` from binding bad arguments), which
are NOT caught by `handle_message`'s `except ServerError` clause.
-/

/-- A stored payload: Python `None`, an `int`, or a `str`. -/
inductive Value
  | vnull
  | vint (n : Int)
  | vstr (s : String)
deriving DecidableEq

/-- Python truthiness of a `Value`: `None` is falsy, `0` is falsy, `""` is falsy. -/
def Value.truthy : Value → Bool
  | .vnull => false
  | .vint n => n != 0
  | .vstr s => s != ""

/-- Python `value + increment_by` where `increment_by` is an `int`:
defined for `int` values, a `TypeError` (`none`) for `None` and `str`. -/
def valueAdd : Value → Int → Option Value
  | .vint n, m => some (.vint (n + m))
  | _, _ => none

/-- The `Store` class of `dbserver.py`: one record. `ttl` is the private
`_Store__ttl` attribute, `seed` is the creation timestamp (`written_at`). -/
structure Record where
  key : String
  value : Value
  ttl : Int
  seed : Int
deriving DecidableEq

/-- `Store.ttl` property: `(max(self.__ttl - (int(time.time()) - self.seed), 0),
self.__ttl == 0)`, i.e. (remaining ttl, persistent). -/
def storeTtl (r : Record) (now : Int) : Int × Bool :=
  (max (r.ttl - (now - r.seed)) 0, r.ttl == 0)

/-- `Store.expired` property: `ttl <= 0 and not persistent`. -/
def storeExpired (r : Record) (now : Int) : Bool :=
  decide ((storeTtl r now).1 ≤ 0) && !(storeTtl r now).2

/-- `Store.expiration` property: `self.__ttl + self.seed`. -/
def storeExpiration (r : Record) : Int :=
  r.ttl + r.seed

/-- The serialized form of a record kept in `Server.data`:
`{'value': ..., 'ttl': ..., 'seed': ...}`. -/
structure Entry where
  value : Value
  ttl : Int
  seed : Int
deriving DecidableEq

/-- `Server.data`: a Python dict from key to serialized record, modelled as an
association list with unique keys (updates replace in place, as dicts do). -/
abbrev Data := List (String × Entry)

/-- `ExpiryService.keys`: a `defaultdict(list)` from expiration instant to the
list of keys subscribed under that instant. -/
abbrev Buckets := List (Int × List String)

/-- `dict.get(key)` on `Server.data`. -/
def dictGet : Data → String → Option Entry
  | [], _ => none
  | (k, e) :: rest, key => if k = key then some e else dictGet rest key

/-- `dict.update({key: e})`: replace the value in place if the key is present,
append otherwise. -/
def dictSet : Data → String → Entry → Data
  | [], key, e => [(key, e)]
  | (k, e0) :: rest, key, e =>
    if k = key then (k, e) :: rest else (k, e0) :: dictSet rest key e

/-- `del data[key]` guarded by `if key in data`: removes the pair with the key,
identity when the key is absent. -/
def dictDel : Data → String → Data
  | [], _ => []
  | (k, e) :: rest, key => if k = key then rest else (k, e) :: dictDel rest key

/-- Reading `keys[t]` from the `defaultdict(list)`: the bucket, or `[]`. -/
def ddGet : Buckets → Int → List String
  | [], _ => []
  | (t, l) :: rest, inst => if t = inst then l else ddGet rest inst

/-- Writing bucket `t` of the `defaultdict(list)`. -/
def ddSet : Buckets → Int → List String → Buckets
  | [], inst, l => [(inst, l)]
  | (t, l0) :: rest, inst, l =>
    if t = inst then (t, l) :: rest else (t, l0) :: ddSet rest inst l

/-- Python `list.remove(x)`: removes the first occurrence, raises `ValueError`
(`none`) when `x` is absent. -/
def removeFirst : List String → String → Option (List String)
  | [], _ => none
  | x :: rest, key =>
    if x = key then some rest else (removeFirst rest key).map (fun l => x :: l)

/-- The exceptions the modelled code can raise. `commandNotFound` and
`notIncrementable` are `ServerError` subclasses; `valueError` and `typeError`
are Python builtins that `handle_message` does not catch. -/
inductive Err
  | commandNotFound
  | notIncrementable
  | valueError
  | typeError
deriving DecidableEq

/-- Whether an exception is a `ServerError` (caught by `handle_message`). -/
def isServerError : Err → Bool
  | .commandNotFound => true
  | .notIncrementable => true
  | .valueError => false
  | .typeError => false

/-- The `message` attribute of each `ServerError`; placeholder text for the
builtin exceptions (their text never reaches `serialize_error`). -/
def errMessage : Err → String
  | .commandNotFound => "Unknown command"
  | .notIncrementable => "Provided key`s value is not incrementable"
  | .valueError => "list.remove(x): x not in list"
  | .typeError => "TypeError"

/-- The mutable state of the `Server`: the store dict and the expiry index. -/
structure ServerState where
  data : Data
  keys : Buckets
deriving DecidableEq

/-- `Store.deserialize(key, data)`: when the dict entry exists (it is then a
non-empty dict, hence truthy) rebuild the record; `seed or int(time.time())`
in the constructor replaces a falsy (zero) stored seed by `now`. When the
entry is `None`, `Store(key, None)` with default `ttl=0` and `seed = now`. -/
def deserialize (key : String) (d : Option Entry) (now : Int) : Record :=
  match d with
  | some e => { key := key, value := e.value, ttl := e.ttl,
                seed := if e.seed = 0 then now else e.seed }
  | none => { key := key, value := .vnull, ttl := 0, seed := now }

/-- `Server._get_store(key)`: `Store.deserialize(key, self.data.get(key))`. -/
def getStore (s : ServerState) (now : Int) (key : String) : Record :=
  deserialize key (dictGet s.data key) now

/-- `ExpiryService.subscribe(store)`: append the key to the bucket of the
record's expiration instant. -/
def subscribe (s : ServerState) (r : Record) : ServerState :=
  { s with keys := ddSet s.keys (storeExpiration r)
                     (ddGet s.keys (storeExpiration r) ++ [r.key]) }

/-- `ExpiryService.unsubscribe(store)`: `list.remove` the key from the bucket of
the record's expiration instant; raises `ValueError` when the key is absent
from that bucket. -/
def unsubscribe (s : ServerState) (r : Record) : Except Err ServerState :=
  match removeFirst (ddGet s.keys (storeExpiration r)) r.key with
  | none => .error .valueError
  | some l => .ok { s with keys := ddSet s.keys (storeExpiration r) l }

/-- `Server._save_store(store)`: `self.data.update(store.serialize())`, then
subscribe to the expiry index when the record is not persistent. -/
def saveStore (s : ServerState) (r : Record) : ServerState :=
  let s1 : ServerState :=
    { s with data := dictSet s.data r.key ⟨r.value, r.ttl, r.seed⟩ }
  if r.ttl = 0 then s1 else subscribe s1 r

/-- `Server.delete(key)`: unsubscribe when the (deserialized) record is not
persistent — which propagates `ValueError` when the key is absent from its
bucket — then `del self.data[key]` if present. Returns Python `None`. -/
def serverDelete (s : ServerState) (now : Int) (key : String) :
    Except Err ServerState :=
  let store := getStore s now key
  if store.ttl = 0 then
    .ok { s with data := dictDel s.data key }
  else
    match unsubscribe s store with
    | .error e => .error e
    | .ok s1 => .ok { s1 with data := dictDel s1.data key }

/-- `Server.get(key)`: a `Store` object defines no `__bool__`/`__len__`, so
`if store:` is always true and the `return None` branch is dead code; the
live code returns `self.delete(key)` (i.e. `None`) when the record is
expired, and `store.value` otherwise. -/
def serverGet (s : ServerState) (now : Int) (key : String) :
    Except Err (Value × ServerState) :=
  let store := getStore s now key
  if storeExpired store now then
    (serverDelete s now key).map (fun s1 => (.vnull, s1))
  else
    .ok (store.value, s)

/-- `Server.set(key, value, ttl=0)`: build a fresh `Store` (its `seed` defaults
to `int(time.time())`) and `_save_store` it. Returns Python `None`. -/
def serverSet (s : ServerState) (now : Int) (key : String) (value : Value)
    (ttl : Int) : ServerState :=
  saveStore s { key := key, value := value, ttl := ttl, seed := now }

/-- `Server.increment(key, increment_by=1)`: when the deserialized value is
truthy, `store.value += increment_by` (a `TypeError` becomes
`NotIncrementableError`); otherwise — absent key OR present falsy value —
replace with a fresh `Store(key, increment_by)` (persistent, `seed = now`).
Then `_save_store` and return the value. -/
def serverIncrement (s : ServerState) (now : Int) (key : String)
    (increment_by : Int) : Except Err (Value × ServerState) :=
  let store := getStore s now key
  if store.value.truthy then
    match valueAdd store.value increment_by with
    | none => .error .notIncrementable
    | some v =>
      .ok (v, saveStore s { store with value := v })
  else
    .ok (.vint increment_by,
         saveStore s { key := key, value := .vint increment_by,
                       ttl := 0, seed := now })

/-- `Server.decrement(key)`: `self.increment(key, increment_by=-1)`. -/
def serverDecrement (s : ServerState) (now : Int) (key : String) :
    Except Err (Value × ServerState) :=
  serverIncrement s now key (-1)

/-- `Server.expire(key, ttl)`: the statement `store.__ttl = ttl` occurs inside
`class Server`, so Python name-mangles it to `store._Server__ttl = ttl`; it
creates an unused attribute and leaves the record's actual `_Store__ttl`
(and `seed`) unchanged. The method then `_save_store`s the unchanged record
(re-subscribing it when non-persistent) and returns `None`. -/
def serverExpire (s : ServerState) (now : Int) (key : String) (_ttl : Int) :
    ServerState :=
  saveStore s (getStore s now key)

/-- `Server.ttl(key)`: `self._get_store(key).ttl[0]`, the remaining TTL. -/
def serverTtl (s : ServerState) (now : Int) (key : String) : Int :=
  (storeTtl (getStore s now key) now).1

/-- The argument bag of a request message (`input['args']`). -/
structure ArgBag where
  key : Option String
  value : Option Value
  ttl : Option Int
  increment_by : Option Int
deriving DecidableEq

/-- A parsed request message: `{'command': ..., 'args': {...}}`. -/
structure Message where
  command : String
  args : ArgBag
deriving DecidableEq

/-- A response: `{'result': ..., 'status': 'OK'|'ERROR'}`. -/
structure Response where
  status : String
  result : Value
deriving DecidableEq

/-- Whether the command name is a key of the `MAP` dict in
`Server.process_input`; an unknown name raises `CommandNotFoundError` there,
before `handle_message`'s try/except is entered. -/
def knownCommand (c : String) : Bool :=
  c == "GET" || c == "SET" || c == "PING" || c == "DELETE" || c == "INCR" ||
    c == "DECR" || c == "TTL" || c == "EXPIRE"

/-- Calling the `functools.partial` built by `process_input`: binds the named
arguments to the mapped method and runs it. A missing required argument is a
`TypeError` at call time. `SET`'s `ttl` defaults to 0, `INCR`'s
`increment_by` defaults to 1; methods returning Python `None` yield `vnull`. -/
def runCommand (s : ServerState) (now : Int) (m : Message) :
    Except Err (Value × ServerState) :=
  if m.command = "PING" then .ok (.vstr "PONG", s)
  else if m.command = "GET" then
    match m.args.key with
    | some k => serverGet s now k
    | none => .error .typeError
  else if m.command = "SET" then
    match m.args.key, m.args.value with
    | some k, some v => .ok (.vnull, serverSet s now k v (m.args.ttl.getD 0))
    | _, _ => .error .typeError
  else if m.command = "DELETE" then
    match m.args.key with
    | some k => (serverDelete s now k).map (fun s1 => (.vnull, s1))
    | none => .error .typeError
  else if m.command = "INCR" then
    match m.args.key with
    | some k => serverIncrement s now k (m.args.increment_by.getD 1)
    | none => .error .typeError
  else if m.command = "DECR" then
    match m.args.key with
    | some k => serverDecrement s now k
    | none => .error .typeError
  else if m.command = "TTL" then
    match m.args.key with
    | some k => .ok (.vint (serverTtl s now k), s)
    | none => .error .typeError
  else if m.command = "EXPIRE" then
    match m.args.key, m.args.ttl with
    | some k, some t => .ok (.vnull, serverExpire s now k t)
    | _, _ => .error .typeError
  else .error .commandNotFound

/-- `Server.handle_message(message)`: `process_input` runs BEFORE the
try/except, so a `CommandNotFoundError` raised there propagates out of
`handle_message` uncaught. The try/except around `command()` catches only
`ServerError`, serializing its `message` with status `ERROR`; any other
exception (`ValueError`, `TypeError`) propagates. A `ServerError` is always
raised before any state mutation, so the state returned with an `ERROR`
response is the input state. -/
def handleMessage (s : ServerState) (now : Int) (m : Message) :
    Except Err (Response × ServerState) :=
  if knownCommand m.command then
    match runCommand s now m with
    | .ok (out, s1) => .ok (⟨"OK", out⟩, s1)
    | .error e =>
      if isServerError e then .ok (⟨"ERROR", .vstr (errMessage e)⟩, s)
      else .error e
  else .error .commandNotFound

/-! ### Helper lemmas about the dict / defaultdict / list models -/

theorem dictGet_dictSet_self (d : Data) (key : String) (e : Entry) :
    dictGet (dictSet d key e) key = some e := by
  induction d with
  | nil => simp [dictSet, dictGet]
  | cons p rest ih =>
    obtain ⟨k0, e0⟩ := p
    by_cases h : k0 = key
    · simp [dictSet, dictGet, h]
    · simp [dictSet, dictGet, h, ih]

theorem dictGet_eq_none_of_not_mem (d : Data) (key : String)
    (h : key ∉ d.map Prod.fst) : dictGet d key = none := by
  induction d with
  | nil => rfl
  | cons p rest ih =>
    obtain ⟨k0, e0⟩ := p
    rw [List.map_cons, List.mem_cons, not_or] at h
    simp only [dictGet]
    rw [if_neg (fun hk => h.1 hk.symm), ih h.2]

theorem dictDel_of_get_none (d : Data) (key : String)
    (h : dictGet d key = none) : dictDel d key = d := by
  induction d with
  | nil => rfl
  | cons p rest ih =>
    obtain ⟨k0, e0⟩ := p
    simp only [dictGet] at h
    by_cases hk : k0 = key
    · simp [hk] at h
    · rw [if_neg hk] at h
      simp only [dictDel, if_neg hk]
      rw [ih h]

theorem dictGet_dictDel_self (d : Data) (key : String)
    (hnd : (d.map Prod.fst).Nodup) : dictGet (dictDel d key) key = none := by
  induction d with
  | nil => rfl
  | cons p rest ih =>
    obtain ⟨k0, e0⟩ := p
    rw [List.map_cons, List.nodup_cons] at hnd
    by_cases hk : k0 = key
    · simp only [dictDel, if_pos hk]
      exact dictGet_eq_none_of_not_mem rest key (hk ▸ hnd.1)
    · simp only [dictDel, if_neg hk, dictGet]
      exact ih hnd.2

theorem mem_fst_dictSet {d : Data} {key k' : String} {e : Entry}
    (h : k' ∈ (dictSet d key e).map Prod.fst) :
    k' ∈ d.map Prod.fst ∨ k' = key := by
  induction d with
  | nil =>
    simp [dictSet] at h
    exact Or.inr h
  | cons p rest ih =>
    obtain ⟨k0, e0⟩ := p
    by_cases hk : k0 = key
    · simp only [dictSet, if_pos hk, List.map_cons, List.mem_cons] at h
      rw [List.map_cons, List.mem_cons]
      exact Or.inl h
    · simp only [dictSet, if_neg hk, List.map_cons, List.mem_cons] at h
      rw [List.map_cons, List.mem_cons]
      rcases h with h | h
      · exact Or.inl (Or.inl h)
      · rcases ih h with h1 | h1
        · exact Or.inl (Or.inr h1)
        · exact Or.inr h1

theorem nodup_fst_dictSet (d : Data) (key : String) (e : Entry)
    (hnd : (d.map Prod.fst).Nodup) : ((dictSet d key e).map Prod.fst).Nodup := by
  induction d with
  | nil => simp [dictSet]
  | cons p rest ih =>
    obtain ⟨k0, e0⟩ := p
    rw [List.map_cons, List.nodup_cons] at hnd
    by_cases hk : k0 = key
    · simp only [dictSet, if_pos hk, List.map_cons, List.nodup_cons]
      exact ⟨hnd.1, hnd.2⟩
    · simp only [dictSet, if_neg hk, List.map_cons, List.nodup_cons]
      refine ⟨fun hmem => ?_, ih hnd.2⟩
      rcases mem_fst_dictSet hmem with h | h
      · exact hnd.1 h
      · exact hk h

theorem ddGet_ddSet_self (b : Buckets) (t : Int) (l : List String) :
    ddGet (ddSet b t l) t = l := by
  induction b with
  | nil => simp [ddSet, ddGet]
  | cons p rest ih =>
    obtain ⟨t0, l0⟩ := p
    by_cases h : t0 = t
    · simp [ddSet, ddGet, h]
    · simp [ddSet, ddGet, h, ih]

theorem ddGet_ddSet_ne (b : Buckets) (t t' : Int) (l : List String)
    (h : t ≠ t') : ddGet (ddSet b t l) t' = ddGet b t' := by
  induction b with
  | nil => simp [ddSet, ddGet, h]
  | cons p rest ih =>
    obtain ⟨t0, l0⟩ := p
    by_cases h0 : t0 = t
    · simp [ddSet, ddGet, h0, h]
    · simp [ddSet, ddGet, h0, ih]

theorem removeFirst_eq_none (l : List String) (key : String) (h : key ∉ l) :
    removeFirst l key = none := by
  induction l with
  | nil => rfl
  | cons x rest ih =>
    rw [List.mem_cons, not_or] at h
    simp only [removeFirst]
    rw [if_neg (fun hx : x = key => h.1 hx.symm), ih h.2]
    rfl

theorem removeFirst_append_self (l : List String) (key : String) (h : key ∉ l) :
    removeFirst (l ++ [key]) key = some l := by
  induction l with
  | nil => simp [removeFirst]
  | cons x rest ih =>
    rw [List.mem_cons, not_or] at h
    simp only [List.cons_append, removeFirst, List.append_eq]
    rw [if_neg (fun hx : x = key => h.1 hx.symm), ih h.2]
    rfl

theorem removeFirst_of_mem (l : List String) (key : String) (h : key ∈ l) :
    ∃ l1 l2, l = l1 ++ key :: l2 ∧ key ∉ l1 ∧
      removeFirst l key = some (l1 ++ l2) := by
  induction l with
  | nil => cases h
  | cons x rest ih =>
    by_cases hx : x = key
    · exact ⟨[], rest, by simp [hx], by simp, by simp [removeFirst, hx]⟩
    · have hm : key ∈ rest := by
        rcases List.mem_cons.mp h with h1 | h1
        · exact absurd h1.symm hx
        · exact h1
      obtain ⟨l1, l2, he, hn, hr⟩ := ih hm
      refine ⟨x :: l1, l2, by simp [he], ?_, ?_⟩
      · rw [List.mem_cons, not_or]
        exact ⟨fun hk => hx hk.symm, hn⟩
      · simp [removeFirst, hx, hr]

/-! ### Helper lemmas about the engine operations -/

theorem serverSet_zero (s : ServerState) (now : Int) (key : String) (v : Value) :
    serverSet s now key v 0 = ⟨dictSet s.data key ⟨v, 0, now⟩, s.keys⟩ := by
  simp [serverSet, saveStore]

theorem serverSet_pos (s : ServerState) (now : Int) (key : String) (v : Value)
    (ttl : Int) (h : ttl ≠ 0) :
    serverSet s now key v ttl =
      ⟨dictSet s.data key ⟨v, ttl, now⟩,
       ddSet s.keys (ttl + now) (ddGet s.keys (ttl + now) ++ [key])⟩ := by
  simp [serverSet, saveStore, subscribe, storeExpiration, h]

theorem getStore_none (s : ServerState) (now : Int) (key : String)
    (h : dictGet s.data key = none) :
    getStore s now key = ⟨key, .vnull, 0, now⟩ := by
  simp [getStore, deserialize, h]

theorem getStore_some (s : ServerState) (now : Int) (key : String) (e : Entry)
    (h : dictGet s.data key = some e) (h0 : e.seed ≠ 0) :
    getStore s now key = ⟨key, e.value, e.ttl, e.seed⟩ := by
  simp [getStore, deserialize, h, h0]

theorem storeExpired_eq_true_iff (r : Record) (now : Int) :
    storeExpired r now = true ↔ r.ttl + r.seed ≤ now ∧ r.ttl ≠ 0 := by
  simp [storeExpired, storeTtl]
  omega

theorem unsubscribe_ok (s s1 : ServerState) (r : Record)
    (h : unsubscribe s r = .ok s1) : s1.data = s.data := by
  rcases hr : removeFirst (ddGet s.keys (storeExpiration r)) r.key with _ | l
  · simp [unsubscribe, hr] at h
  · simp only [unsubscribe, hr, Except.ok.injEq] at h
    rw [← h]

theorem serverDelete_absent (s : ServerState) (now : Int) (key : String)
    (h : dictGet s.data key = none) : serverDelete s now key = .ok s := by
  obtain ⟨d, ks⟩ := s
  have hg := getStore_none ⟨d, ks⟩ now key h
  simp [serverDelete, hg, dictDel_of_get_none d key h]

theorem serverDelete_ok_data (s s1 : ServerState) (now : Int) (key : String)
    (h : serverDelete s now key = .ok s1) : s1.data = dictDel s.data key := by
  by_cases ht : (getStore s now key).ttl = 0
  · simp only [serverDelete, if_pos ht, Except.ok.injEq] at h
    rw [← h]
  · rcases hu : unsubscribe s (getStore s now key) with e | s2
    · simp [serverDelete, if_neg ht, hu] at h
    · simp only [serverDelete, if_neg ht, hu, Except.ok.injEq] at h
      rw [← h]
      show dictDel s2.data key = dictDel s.data key
      rw [unsubscribe_ok s s2 _ hu]

/-! ### Claim theorems -/

/-- Claim C1 (code bug): the claim says `increment(key, by)` on a present key
whose stored value is the number 0 adds `by` to the stored value in place,
never treating a present falsy value as an absent key. The code instead takes
the falsy branch (`if store.value:` is false for 0) and replaces the record
with a fresh persistent one: here a record with value 0, ttl 100,
written_at 100000 is replaced on `INCR` at t=100001 by value 1, ttl 0,
written_at 100001 — the TTL metadata is discarded, exactly as flagged in the
spec's design notes. -/
theorem increment_on_zero_value_replaces_record :
    serverIncrement ⟨[("k", ⟨.vint 0, 100, 100000⟩)], [(100100, ["k"])]⟩
        100001 "k" 1 =
      .ok (.vint 1, ⟨[("k", ⟨.vint 1, 0, 100001⟩)], [(100100, ["k"])]⟩) := rfl

/-- Claim C2 (code bug): the claim says `expire(key, ttl)` sets the record's
TTL to the new value and resets `written_at`, unsubscribing the old Expiry
Index entry first. In the code `store.__ttl = ttl` is name-mangled inside
`class Server` to `store._Server__ttl`, so the store's real TTL and seed are
unchanged; no unsubscribe happens and `_save_store` re-subscribes the same
instant, duplicating the index entry. Here `expire("k", 100)` on a record
with ttl 5 leaves the stored ttl at 5 (a subsequent `ttl` query still
reports 5, not 100) and the 100005 bucket becomes `["k", "k"]`. -/
theorem expire_does_not_change_ttl :
    serverExpire ⟨[("k", ⟨.vstr "v", 5, 100000⟩)], [(100005, ["k"])]⟩
        100000 "k" 100 =
      ⟨[("k", ⟨.vstr "v", 5, 100000⟩)], [(100005, ["k", "k"])]⟩ ∧
    serverTtl (serverExpire ⟨[("k", ⟨.vstr "v", 5, 100000⟩)], [(100005, ["k"])]⟩
        100000 "k" 100) 100000 "k" = 5 := ⟨rfl, rfl⟩

/-- Claim C3 (counterexample): the claim says `ttl`/`expire` on an absent key
fail with KeyNotFound; in the spec's scenario the `ttl("x")` call after the
expired read must fail. The code defines no KeyNotFound error at all:
running the scenario (`set("x",10,ttl=1)` at 100000, reads at 100000 and
100002), the subsequent `TTL` request yields status `OK` with result 0, and
an `EXPIRE` request on the absent key also yields `OK`, silently creating a
persistent record with value None. -/
theorem ttl_after_expiry_returns_ok_zero :
    serverGet (serverSet ⟨[], []⟩ 100000 "x" (.vint 10) 1) 100000 "x" =
      .ok (.vint 10, serverSet ⟨[], []⟩ 100000 "x" (.vint 10) 1) ∧
    serverGet (serverSet ⟨[], []⟩ 100000 "x" (.vint 10) 1) 100002 "x" =
      .ok (.vnull, ⟨[], [(100001, [])]⟩) ∧
    handleMessage ⟨[], [(100001, [])]⟩ 100002
        ⟨"TTL", ⟨some "x", none, none, none⟩⟩ =
      .ok (⟨"OK", .vint 0⟩, ⟨[], [(100001, [])]⟩) ∧
    handleMessage ⟨[], [(100001, [])]⟩ 100002
        ⟨"EXPIRE", ⟨some "x", none, some 3, none⟩⟩ =
      .ok (⟨"OK", .vnull⟩, ⟨[("x", ⟨.vnull, 0, 100002⟩)], [(100001, [])]⟩) :=
  ⟨rfl, rfl, rfl, rfl⟩

/-- Claim C3 (amended): for every key absent from the store, `ttl(key)`
returns 0 (no error) and `expire(key, ttl)` succeeds, storing a fresh
persistent record with value None and leaving the expiry index untouched. -/
theorem ttl_expire_absent (s : ServerState) (now ttl : Int) (key : String)
    (h : dictGet s.data key = none) :
    serverTtl s now key = 0 ∧
    serverExpire s now key ttl =
      { s with data := dictSet s.data key ⟨.vnull, 0, now⟩ } := by
  have hg := getStore_none s now key h
  constructor
  · simp [serverTtl, hg, storeTtl]
  · simp [serverExpire, hg, saveStore]

/-- Witness for `ttl_expire_absent` on the empty store. -/
theorem ttl_expire_absent_witness :
    serverTtl ⟨[], []⟩ 100 "k" = 0 ∧
    serverExpire ⟨[], []⟩ 100 "k" 7 = ⟨[("k", ⟨.vnull, 0, 100⟩)], []⟩ :=
  ttl_expire_absent ⟨[], []⟩ 100 7 "k" (by decide)

/-- Claim C4 (counterexample): the claim says overwriting a non-persistent
record with `set` removes its old Expiry Index entry so no bucket holds a
dangling key. `Server.set` never unsubscribes: after `set("k",1,ttl=5)` then
`set("k",2,ttl=10)` at t=100000, bucket 100005 still holds "k" while the
live record's expiration instant is 100010 — a dangling entry. -/
theorem overwrite_leaves_dangling_index_entry :
    serverSet (serverSet ⟨[], []⟩ 100000 "k" (.vint 1) 5) 100000 "k"
        (.vint 2) 10 =
      ⟨[("k", ⟨.vint 2, 10, 100000⟩)], [(100005, ["k"]), (100010, ["k"])]⟩ ∧
    "k" ∈ ddGet ([(100005, ["k"]), (100010, ["k"])] : Buckets) 100005 ∧
    storeExpiration (getStore ⟨[("k", ⟨.vint 2, 10, 100000⟩)],
        [(100005, ["k"]), (100010, ["k"])]⟩ 100000 "k") = 100010 :=
  ⟨rfl, by decide, rfl⟩

/-- Claim C4 (amended): `set` never removes any Expiry Index entry — every key
present in any bucket before a `set` is still present in that bucket after
it (when overwriting a non-persistent record, the old entry dangles). -/
theorem set_preserves_bucket_membership (s : ServerState) (now : Int)
    (key k2 : String) (v : Value) (ttl t : Int)
    (h : k2 ∈ ddGet s.keys t) :
    k2 ∈ ddGet (serverSet s now key v ttl).keys t := by
  by_cases ht : ttl = 0
  · rw [ht, serverSet_zero]
    exact h
  · rw [serverSet_pos s now key v ttl ht]
    by_cases hteq : ttl + now = t
    · show k2 ∈ ddGet (ddSet s.keys (ttl + now) _) t
      rw [hteq, ddGet_ddSet_self]
      exact List.mem_append_left _ h
    · show k2 ∈ ddGet (ddSet s.keys (ttl + now) _) t
      rw [ddGet_ddSet_ne _ _ _ _ hteq]
      exact h

/-- Witness for `set_preserves_bucket_membership`: the old entry for "a"
survives a `set` of key "k". -/
theorem set_preserves_bucket_membership_witness :
    "a" ∈ ddGet (serverSet ⟨[], [(50, ["a"])]⟩ 100 "k" (.vint 1) 9).keys 50 :=
  set_preserves_bucket_membership ⟨[], [(50, ["a"])]⟩ 100 "k" "a"
    (.vint 1) 9 50 (by decide)

/-- Claim C5 (code bug): the claim says every failure — including an
unrecognized command, which fails with CommandNotFound — becomes an ERROR
response and never raises out of the message handler. `process_input` runs
before the try/except in `handle_message`, so the `CommandNotFoundError` it
raises for `{"command": "FOO"}` propagates uncaught (modelled as
`Except.error`); by contrast a `ServerError` raised inside the command, such
as `NotIncrementableError` on `INCR` of a string value, is converted to an
ERROR response as the claim describes. -/
theorem unknown_command_escapes_handler :
    handleMessage ⟨[], []⟩ 100000 ⟨"FOO", ⟨none, none, none, none⟩⟩ =
      .error .commandNotFound ∧
    handleMessage ⟨[("s", ⟨.vstr "v", 0, 100⟩)], []⟩ 200
        ⟨"INCR", ⟨some "s", none, none, none⟩⟩ =
      .ok (⟨"ERROR", .vstr "Provided key`s value is not incrementable"⟩,
           ⟨[("s", ⟨.vstr "v", 0, 100⟩)], []⟩) := ⟨rfl, rfl⟩

/-- Claim C6: after `set(k, v, ttl=T)` at time `t0` (with `T > 0`, a positive
wall-clock `t0`, a duplicate-free store dict and no stale entry for `k` in
the `t0+T` bucket) and no further writes, `get(k)` at time `t` returns `v`
for `t0 ≤ t < t0+T` and returns absent (`None`) for `t ≥ t0+T` even though
no reaper ran: the expired read eagerly deletes the record and its Expiry
Index entry. -/
theorem set_then_get_expiry (s : ServerState) (key : String) (v : Value)
    (T t0 t : Int) (hT : 0 < T) (ht0 : 0 < t0)
    (hnd : (s.data.map Prod.fst).Nodup)
    (hb : key ∉ ddGet s.keys (T + t0)) :
    (t0 ≤ t → t < t0 + T →
      serverGet (serverSet s t0 key v T) t key =
        .ok (v, serverSet s t0 key v T)) ∧
    (t0 + T ≤ t →
      ∃ s2, serverGet (serverSet s t0 key v T) t key = .ok (.vnull, s2) ∧
        dictGet s2.data key = none ∧ key ∉ ddGet s2.keys (T + t0)) := by
  have hT0 : T ≠ 0 := by omega
  have hset := serverSet_pos s t0 key v T hT0
  have hd1 : (serverSet s t0 key v T).data = dictSet s.data key ⟨v, T, t0⟩ := by
    rw [hset]
  have hk1 : (serverSet s t0 key v T).keys =
      ddSet s.keys (T + t0) (ddGet s.keys (T + t0) ++ [key]) := by
    rw [hset]
  have hg : getStore (serverSet s t0 key v T) t key = ⟨key, v, T, t0⟩ :=
    getStore_some (serverSet s t0 key v T) t key ⟨v, T, t0⟩
      (by rw [hd1]; exact dictGet_dictSet_self s.data key ⟨v, T, t0⟩)
      (by show t0 ≠ 0; omega)
  constructor
  · intro h1 h2
    have hexp : storeExpired (⟨key, v, T, t0⟩ : Record) t = false := by
      rw [Bool.eq_false_iff]
      intro hc
      rw [storeExpired_eq_true_iff] at hc
      have hc1 : T + t0 ≤ t := hc.1
      omega
    simp [serverGet, hg, hexp]
  · intro h1
    have hexp : storeExpired (⟨key, v, T, t0⟩ : Record) t = true := by
      rw [storeExpired_eq_true_iff]
      exact ⟨(by omega : T + t0 ≤ t), hT0⟩
    have hbucket : ddGet (serverSet s t0 key v T).keys (T + t0) =
        ddGet s.keys (T + t0) ++ [key] := by
      rw [hk1]; exact ddGet_ddSet_self _ _ _
    have hrf : removeFirst (ddGet (serverSet s t0 key v T).keys (T + t0)) key =
        some (ddGet s.keys (T + t0)) := by
      rw [hbucket]
      exact removeFirst_append_self _ _ hb
    have hunsub : unsubscribe (serverSet s t0 key v T)
        (⟨key, v, T, t0⟩ : Record) =
        .ok { serverSet s t0 key v T with
              keys := ddSet (serverSet s t0 key v T).keys (T + t0)
                        (ddGet s.keys (T + t0)) } := by
      simp [unsubscribe, storeExpiration, hrf]
    have hdel : serverDelete (serverSet s t0 key v T) t key =
        .ok ⟨dictDel (serverSet s t0 key v T).data key,
             ddSet (serverSet s t0 key v T).keys (T + t0)
               (ddGet s.keys (T + t0))⟩ := by
      simp [serverDelete, hg, hT0, hunsub]
    refine ⟨⟨dictDel (serverSet s t0 key v T).data key,
            ddSet (serverSet s t0 key v T).keys (T + t0)
              (ddGet s.keys (T + t0))⟩, ?_, ?_, ?_⟩
    · simp [serverGet, hg, hexp, hdel, Except.map]
    · show dictGet (dictDel (serverSet s t0 key v T).data key) key = none
      apply dictGet_dictDel_self
      rw [hd1]
      exact nodup_fst_dictSet s.data key _ hnd
    · show key ∉ ddGet (ddSet (serverSet s t0 key v T).keys (T + t0)
        (ddGet s.keys (T + t0))) (T + t0)
      rw [ddGet_ddSet_self]
      exact hb

/-- Witness for `set_then_get_expiry`: `set("y", 7, ttl=2)` at 100000, read
back at 100001, expired at 100002. -/
theorem set_then_get_expiry_witness :
    (serverGet (serverSet ⟨[], []⟩ 100000 "y" (.vint 7) 2) 100001 "y" =
      .ok (.vint 7, serverSet ⟨[], []⟩ 100000 "y" (.vint 7) 2)) ∧
    ∃ s2, serverGet (serverSet ⟨[], []⟩ 100000 "y" (.vint 7) 2) 100002 "y" =
        .ok (.vnull, s2) ∧
      dictGet s2.data "y" = none ∧ "y" ∉ ddGet s2.keys (2 + 100000) := by
  constructor
  · exact (set_then_get_expiry ⟨[], []⟩ "y" (.vint 7) 2 100000 100001
      (by decide) (by decide) (by decide) (by decide)).1 (by decide) (by decide)
  · exact (set_then_get_expiry ⟨[], []⟩ "y" (.vint 7) 2 100000 100002
      (by decide) (by decide) (by decide) (by decide)).2 (by decide)

/-- Claim C7 (counterexample): the claim says `unsubscribe` is a silent no-op
when the key is absent from the bucket. The code calls `list.remove`, which
raises `ValueError` on an absent element. -/
theorem unsubscribe_absent_raises :
    unsubscribe ⟨[], []⟩ ⟨"k", .vnull, 5, 100⟩ = .error .valueError := rfl

/-- Claim C7 (amended): `unsubscribe(key, expiration_instant)` removes the
first occurrence of the key from the bucket of the record's expiration
instant when present; when the key is absent from that bucket it raises
`ValueError` (it is NOT a silent no-op). -/
theorem unsubscribe_spec (s : ServerState) (r : Record) :
    (r.key ∉ ddGet s.keys (storeExpiration r) →
      unsubscribe s r = .error .valueError) ∧
    (r.key ∈ ddGet s.keys (storeExpiration r) →
      ∃ l1 l2, ddGet s.keys (storeExpiration r) = l1 ++ r.key :: l2 ∧
        r.key ∉ l1 ∧
        unsubscribe s r =
          .ok { s with keys := ddSet s.keys (storeExpiration r) (l1 ++ l2) }) := by
  constructor
  · intro h
    simp [unsubscribe, removeFirst_eq_none _ _ h]
  · intro h
    obtain ⟨l1, l2, he, hn, hr⟩ := removeFirst_of_mem _ _ h
    exact ⟨l1, l2, he, hn, by simp [unsubscribe, hr]⟩

/-- Witness for `unsubscribe_spec`: the error case on an empty index and the
removal case on a singleton bucket. -/
theorem unsubscribe_spec_witness :
    unsubscribe ⟨[], []⟩ ⟨"a", .vnull, 3, 10⟩ = .error .valueError ∧
    ∃ l1 l2, ddGet ([(13, ["a"])] : Buckets) 13 = l1 ++ "a" :: l2 ∧
      "a" ∉ l1 ∧
      unsubscribe ⟨[], [(13, ["a"])]⟩ ⟨"a", .vnull, 3, 10⟩ =
        .ok ⟨[], ddSet [(13, ["a"])] 13 (l1 ++ l2)⟩ := by
  constructor
  · exact (unsubscribe_spec ⟨[], []⟩ ⟨"a", .vnull, 3, 10⟩).1 (by decide)
  · exact (unsubscribe_spec ⟨[], [(13, ["a"])]⟩ ⟨"a", .vnull, 3, 10⟩).2 (by decide)

/-- Claim C8: `set(k, v)` with the default `ttl=0` followed immediately by
`get(k)` returns exactly the stored value `v` (in the embedding, equality of
`Value`s; the Python code stores and returns the very same object
reference, so identity holds a fortiori). -/
theorem set_get_roundtrip (s : ServerState) (now : Int) (key : String)
    (v : Value) :
    serverGet (serverSet s now key v 0) now key =
      .ok (v, serverSet s now key v 0) := by
  rw [serverSet_zero]
  have hg : dictGet (dictSet s.data key ⟨v, 0, now⟩) key = some ⟨v, 0, now⟩ :=
    dictGet_dictSet_self _ _ _
  simp [serverGet, getStore, deserialize, hg, storeExpired, storeTtl]

/-- Claim C9: on a store dict with unique keys, a successful `delete`
followed by a second `delete` of the same key leaves the state exactly as
after the first (the second call is a no-op and raises nothing), and
`delete` of an absent key is a no-op returning success, not an error. -/
theorem delete_reclaim_idempotent (s : ServerState) (now now2 : Int)
    (key : String) (hnd : (s.data.map Prod.fst).Nodup) :
    (∀ s1, serverDelete s now key = .ok s1 →
      serverDelete s1 now2 key = .ok s1) ∧
    (dictGet s.data key = none → serverDelete s now key = .ok s) := by
  constructor
  · intro s1 h
    have hd : s1.data = dictDel s.data key := serverDelete_ok_data s s1 now key h
    have h2 : dictGet s1.data key = none := by
      rw [hd]; exact dictGet_dictDel_self s.data key hnd
    exact serverDelete_absent s1 now2 key h2
  · exact serverDelete_absent s now key

/-- Witness for `delete_reclaim_idempotent`: deleting "k" from a one-record
store succeeds, the second delete is a no-op; deleting "k" when only "a" is
stored is a no-op. -/
theorem delete_reclaim_idempotent_witness :
    serverDelete ⟨[], []⟩ 6 "k" = .ok ⟨[], []⟩ ∧
    serverDelete ⟨[("a", ⟨.vint 1, 0, 100⟩)], []⟩ 5 "k" =
      .ok ⟨[("a", ⟨.vint 1, 0, 100⟩)], []⟩ := by
  constructor
  · exact (delete_reclaim_idempotent ⟨[("k", ⟨.vint 1, 0, 100⟩)], []⟩ 5 6 "k"
      (by decide)).1 ⟨[], []⟩ (by rfl)
  · exact (delete_reclaim_idempotent ⟨[("a", ⟨.vint 1, 0, 100⟩)], []⟩ 5 6 "k"
      (by decide)).2 (by decide)

/-- Claim C10: `increment` on a present key whose stored value is falsy but
non-numeric (the empty string) does not raise NotIncrementable: it replaces
the record with a fresh persistent one holding `increment_by` and returns
`increment_by`; and `NotIncrementableError` is raised only when the stored
value is truthy and does not support addition with the integer
`increment_by`. -/
theorem increment_falsy_nonnumeric (s : ServerState) (now : Int)
    (key : String) (n : Int) :
    (∀ e, dictGet s.data key = some e → e.value = .vstr "" →
      serverIncrement s now key n =
        .ok (.vint n, { s with data := dictSet s.data key ⟨.vint n, 0, now⟩ })) ∧
    (serverIncrement s now key n = .error .notIncrementable →
      (getStore s now key).value.truthy = true ∧
      valueAdd (getStore s now key).value n = none) := by
  constructor
  · intro e hd hv
    have hval : (getStore s now key).value = .vstr "" := by
      simp [getStore, deserialize, hd, hv]
    have ht : (getStore s now key).value.truthy = false := by
      rw [hval]; rfl
    simp [serverIncrement, ht, saveStore]
  · intro h
    rcases htr : (getStore s now key).value.truthy with _ | _
    · simp [serverIncrement, htr] at h
    · rcases hva : valueAdd (getStore s now key).value n with _ | v
      · exact ⟨rfl, rfl⟩
      · simp [serverIncrement, htr, hva] at h

/-- Witness for `increment_falsy_nonnumeric`: incrementing a stored empty
string replaces it with a persistent 5; incrementing a stored "x" (truthy,
non-addable) is the NotIncrementable configuration. -/
theorem increment_falsy_nonnumeric_witness :
    serverIncrement ⟨[("k", ⟨.vstr "", 0, 100⟩)], []⟩ 200 "k" 5 =
      .ok (.vint 5, ⟨[("k", ⟨.vint 5, 0, 200⟩)], []⟩) ∧
    ((getStore ⟨[("k", ⟨.vstr "x", 0, 100⟩)], []⟩ 200 "k").value.truthy = true ∧
      valueAdd (getStore ⟨[("k", ⟨.vstr "x", 0, 100⟩)], []⟩ 200 "k").value 5 =
        none) := by
  constructor
  · exact (increment_falsy_nonnumeric ⟨[("k", ⟨.vstr "", 0, 100⟩)], []⟩
      200 "k" 5).1 ⟨.vstr "", 0, 100⟩ (by rfl) (by rfl)
  · exact (increment_falsy_nonnumeric ⟨[("k", ⟨.vstr "x", 0, 100⟩)], []⟩
      200 "k" 5).2 (by rfl)
